import Mathlib

set_option autoImplicit false

/-!
Shallow embedding of the kaggleTitanic pipeline (src/main.py,
src/titanic_classifier.py, src/custom_model.py) and proofs about it.
Library calls (scikit-learn, fancyimpute, pandas I/O) are abstract
parameters; everything the repository itself computes is embedded
concretely.
-/

namespace Titanic

/-! ## create_alone_right_place_feature (src/main.py lines 59-65)

A row carries the four numeric columns the function reads.  The first
`np.where` adds 10 when `FamSize == 1 & Sex == 0 & Pclass_3 == 1`, the
second adds 10 when `FamSize > 1 & Sex == 1 & Pclass_2 == 1`. -/

structure ARPRow where
  famSize : ℚ
  sex : ℚ
  pclass_2 : ℚ
  pclass_3 : ℚ

def aloneRightPlace (r : ARPRow) : ℚ :=
  (if r.famSize = 1 ∧ r.sex = 0 ∧ r.pclass_3 = 1 then 10 else 0)
  + (if r.famSize > 1 ∧ r.sex = 1 ∧ r.pclass_2 = 1 then 10 else 0)

def create_alone_right_place_feature (data : List ARPRow) : List ℚ :=
  data.map aloneRightPlace

/-! ## extract_title (src/main.py lines 31-44)

Python's `s.split(sep)` for a one-character separator, on strings as
`List Char`: every occurrence of the separator is a delimiter, and the
result is always non-empty. -/

def pySplit (sep : Char) : List Char → List (List Char)
  | [] => [[]]
  | c :: cs =>
    if c = sep then [] :: pySplit sep cs
    else
      match pySplit sep cs with
      | [] => [[c]]
      | h :: t => (c :: h) :: t

theorem pySplit_ne_nil (sep : Char) (l : List Char) : pySplit sep l ≠ [] := by
  induction l with
  | nil => simp [pySplit]
  | cons c cs ih =>
    by_cases hc : c = sep
    · simp [pySplit, hc]
    · cases hps : pySplit sep cs with
      | nil => exact absurd hps ih
      | cons h t => simp [pySplit, hc, hps]

theorem pySplit_not_mem {sep : Char} {l : List Char} (h : sep ∉ l) :
    pySplit sep l = [l] := by
  induction l with
  | nil => rfl
  | cons c cs ih =>
    have hc : ¬ c = sep := fun hcs => h (hcs ▸ List.mem_cons_self c cs)
    have hcs : sep ∉ cs := fun hm => h (List.mem_cons_of_mem c hm)
    simp [pySplit, hc, ih hcs]

theorem pySplit_append {sep : Char} {l₁ : List Char} (l₂ : List Char)
    (h : sep ∉ l₁) : pySplit sep (l₁ ++ sep :: l₂) = l₁ :: pySplit sep l₂ := by
  induction l₁ with
  | nil => simp [pySplit]
  | cons c cs ih =>
    have hc : ¬ c = sep := fun hcs => h (hcs ▸ List.mem_cons_self c cs)
    have hcs : sep ∉ cs := fun hm => h (List.mem_cons_of_mem c hm)
    simp only [List.cons_append, pySplit, if_neg hc, List.append_eq, ih hcs]

theorem pySplit_headD (sep : Char) (l : List Char) :
    (pySplit sep l).headD [] = l.takeWhile (fun c => c != sep) := by
  induction l with
  | nil => rfl
  | cons c cs ih =>
    by_cases hc : c = sep
    · simp [pySplit, hc, List.takeWhile_cons]
    · cases hps : pySplit sep cs with
      | nil => exact absurd hps (pySplit_ne_nil sep cs)
      | cons h t =>
        have : h = cs.takeWhile (fun c => c != sep) := by
          simpa [hps] using ih
        simp [pySplit, hc, hps, List.takeWhile_cons, this]

theorem pySplit_get?_zero (sep : Char) (l : List Char) :
    (pySplit sep l).get? 0 = some (l.takeWhile (fun c => c != sep)) := by
  cases hps : pySplit sep l with
  | nil => exact absurd hps (pySplit_ne_nil sep l)
  | cons h t =>
    have := pySplit_headD sep l
    rw [hps] at this
    simpa using this

theorem takeWhile_all_append {p : Char → Bool} {l₁ : List Char} (l₂ : List Char)
    (h : ∀ c ∈ l₁, p c = true) :
    (l₁ ++ l₂).takeWhile p = l₁ ++ l₂.takeWhile p := by
  induction l₁ with
  | nil => simp
  | cons c cs ih =>
    have hc : p c = true := h c (List.mem_cons_self c cs)
    simp [List.takeWhile_cons, hc, ih fun d hd => h d (List.mem_cons_of_mem c hd)]

/-- Title lists of the `elif` chain in `extract_title`. -/
def esteemedTitles : List (List Char) :=
  ["Rev".toList, "Dr".toList, "Major".toList, "Col".toList,
   "Capt".toList, "Jonkheer".toList, "Dona".toList]

def royaltyTitles : List (List Char) :=
  ["Don".toList, "Lady".toList, "Sir".toList, "the Countess".toList]

/-- The `if`/`elif` chain of `extract_title` that rewrites the raw title. -/
def titleMap (t : List Char) : List Char :=
  if t ∈ ["Mlle".toList, "Ms".toList] then "Miss".toList
  else if t = "Mme".toList then "Mrs".toList
  else if t ∈ esteemedTitles then "Esteemed".toList
  else if t ∈ royaltyTitles then "Royalty".toList
  else t

/-- `x.split(',')[1].split('.')[0][1:]` followed by the title rewriting.
The `[1]` subscript raises `IndexError` when the split has a single
element, i.e. when `x` has no comma. -/
def extract_title (x : List Char) : Except String (List Char) :=
  match (pySplit ',' x).get? 1 with
  | none => Except.error "IndexError"
  | some second =>
      Except.ok (titleMap (((pySplit '.' second).headD []).drop 1))

/-! ## Library classifier abstraction

A scikit-learn estimator is abstract: fitting it on a feature matrix and
a label vector yields prediction functions evaluated row by row
(`predict`, and column 1 of `predict_proba`). -/

structure Fitted where
  predict : List ℚ → ℚ
  predictProba1 : List ℚ → ℚ

structure Model where
  fit : List (List ℚ) → List ℚ → Fitted

/-- A hyper-parameter grid, as passed to `append_model`. -/
abbrev Hyper := List (String × List ℚ)

/-! ## SurvivalClassifier (src/titanic_classifier.py) -/

structure SurvivalClassifier where
  models : List Model
  model_names : List String
  hyper_parameters : List Hyper
  train_x : List (List ℚ)
  train_y : List ℚ
  test_x : List (List ℚ)
  verbose : ℤ
  result : List ℚ

/-- `SurvivalClassifier.__init__` (lines 14-22). -/
def SurvivalClassifier.init (train_x : List (List ℚ)) (train_y : List ℚ)
    (test_x : List (List ℚ)) (verbose : ℤ) : SurvivalClassifier :=
  { models := [], model_names := [], hyper_parameters := [],
    train_x := train_x, train_y := train_y, test_x := test_x,
    verbose := verbose, result := [] }

/-- `append_model` (lines 24-29): `list.append` on the three lists. -/
def SurvivalClassifier.append_model (s : SurvivalClassifier) (model : Model)
    (model_name : String) (hyper_params : Hyper) : SurvivalClassifier :=
  { s with models := s.models ++ [model],
           model_names := s.model_names ++ [model_name],
           hyper_parameters := s.hyper_parameters ++ [hyper_params] }

/-- `get_classifier` (lines 132-138): pair each model with its name and
hand the list to the library `VotingClassifier` constructor, which is an
abstract parameter taking the estimators, the voting mode and the
optional weights. -/
def SurvivalClassifier.get_classifier
    (votingClassifierLib : List (String × Model) → String → Option (List ℚ) → Model)
    (s : SurvivalClassifier) (voting : String) (weights : Option (List ℚ)) : Model :=
  votingClassifierLib (s.model_names.zip s.models) voting weights

/-- `voting` (lines 207-213): build the library voting classifier, fit it
on the stored training data, predict the stored test set into `result`. -/
def SurvivalClassifier.voting
    (votingClassifierLib : List (String × Model) → String → Option (List ℚ) → Model)
    (s : SurvivalClassifier) (voting : String) (weights : Option (List ℚ)) :
    SurvivalClassifier :=
  let voting_classifier := s.get_classifier votingClassifierLib voting weights
  let fitted := voting_classifier.fit s.train_x s.train_y
  { s with result := s.test_x.map fitted.predict }

/-- `x[idx]` row selection for a numpy index array. -/
def selectRows (xs : List (List ℚ)) (idx : List ℕ) : List (List ℚ) :=
  idx.map (fun i => xs.getD i [])

def selectVals (ys : List ℚ) (idx : List ℕ) : List ℚ :=
  idx.map (fun i => ys.getD i 0)

/-- `a[idx] = vals` in-place assignment at an index array. -/
def scatter (base : List ℚ) (idx : List ℕ) (vals : List ℚ) : List ℚ :=
  (idx.zip vals).foldl (fun acc iv => acc.set iv.1 iv.2) base

def listMean (vs : List ℚ) : ℚ := vs.sum / vs.length

/-- `blending` (lines 140-175).  The library `StratifiedKFold(n).split`
is the abstract parameter `skfSplit`; the library `MLPClassifier`
constructor (called with `hidden_layer_sizes=300`) is `mlpLib`.  For
each model and each fold, the model is refitted on the fold's training
part; its class-1 probabilities fill the fold's test positions of the
blend-train matrix and a column that is averaged over folds into the
blend-test matrix.  The blender is fitted on the blend-train matrix and
predicts the blend-test matrix into `result`. -/
def SurvivalClassifier.blending
    (skfSplit : ℕ → List (List ℚ) → List ℚ → List (List ℕ × List ℕ))
    (mlpLib : ℕ → Model)
    (s : SurvivalClassifier) (n_folds : ℕ) : SurvivalClassifier :=
  let folds := skfSplit n_folds s.train_x s.train_y
  let blendCols := s.models.map (fun model =>
    let perFold := folds.map (fun fold =>
      let fitted := model.fit (selectRows s.train_x fold.1) (selectVals s.train_y fold.1)
      ((fold.2, (selectRows s.train_x fold.2).map fitted.predictProba1),
       s.test_x.map fitted.predictProba1))
    let trainCol := perFold.foldl
      (fun acc fw => scatter acc fw.1.1 fw.1.2)
      (List.replicate s.train_x.length 0)
    let testCol := (List.range s.test_x.length).map (fun r =>
      listMean (perFold.map (fun fw => fw.2.getD r 0)))
    (trainCol, testCol))
  let data_set_blend_train := (List.range s.train_x.length).map (fun r =>
    blendCols.map (fun col => col.1.getD r 0))
  let data_set_blend_test := (List.range s.test_x.length).map (fun r =>
    blendCols.map (fun col => col.2.getD r 0))
  let blender := (mlpLib 300).fit data_set_blend_train s.train_y
  { s with result := data_set_blend_test.map blender.predict }

/-- `stacking` (lines 177-200).  The library `train_test_split` (called
with `test_size=0.5, random_state=50`) is the abstract parameter
`ttsLib`.  Each model is fitted on half A; its class-1 probabilities on
half B and on the test set form the stack matrices; the blender is
fitted on the B matrix and predicts the test matrix into `result`. -/
def SurvivalClassifier.stacking
    (ttsLib : ℚ → ℕ → List (List ℚ) → List ℚ →
      (List (List ℚ) × List (List ℚ) × List ℚ × List ℚ))
    (mlpLib : ℕ → Model)
    (s : SurvivalClassifier) : SurvivalClassifier :=
  let split := ttsLib (1/2) 50 s.train_x s.train_y
  let x_train_a := split.1
  let x_train_b := split.2.1
  let y_train_a := split.2.2.1
  let y_train_b := split.2.2.2
  let stackCols := s.models.map (fun model =>
    let fitted := model.fit x_train_a y_train_a
    (x_train_b.map fitted.predictProba1, s.test_x.map fitted.predictProba1))
  let data_set_stack_train := (List.range x_train_b.length).map (fun r =>
    stackCols.map (fun col => col.1.getD r 0))
  let data_set_stack_test := (List.range s.test_x.length).map (fun r =>
    stackCols.map (fun col => col.2.getD r 0))
  let blender := (mlpLib 300).fit data_set_stack_train y_train_b
  { s with result := data_set_stack_test.map blender.predict }

/-! ## Submission files -/

/-- A CSV written by `to_csv`: its column header, its (PassengerId,
Survived) rows, and whether an index column was written. -/
structure Submission where
  header : List String
  rows : List (ℤ × ℚ)
  withIndex : Bool

/-- `flush_result` (lines 202-205): frame the PassengerId column read
from the test CSV with `self.result` as Survived; `to_csv(..., index=False)`. -/
def SurvivalClassifier.flush_result (s : SurvivalClassifier)
    (testPassengerIds : List ℤ) : Submission :=
  { header := ["PassengerId", "Survived"],
    rows := testPassengerIds.zip s.result,
    withIndex := false }

/-- `vote_classifier` (src/main.py lines 202-210): build the library
`VotingClassifier(estimators=models, voting='hard')` — the `weights`
argument of the function is accepted but never forwarded — fit it, and
frame the test CSV's PassengerId column with its predictions;
`to_csv(..., index=False)`. -/
def vote_classifier
    (votingClassifierLib : List (String × Model) → String → Option (List ℚ) → Model)
    (testPassengerIds : List ℤ)
    (models : List (String × Model)) (train : List (List ℚ)) (y : List ℚ)
    (test : List (List ℚ)) (weights : Option (List ℚ)) : Submission :=
  let voting_classifier := votingClassifierLib models "hard" none
  let fitted := voting_classifier.fit train y
  { header := ["PassengerId", "Survived"],
    rows := testPassengerIds.zip (test.map fitted.predict),
    withIndex := false }

/-! ## majority_vote_ensemble (src/main.py lines 177-199) -/

/-- A classifier used by `majority_vote_ensemble`, predicting integer
class labels. -/
structure IntModel where
  fit : List (List ℚ) → List ℤ → (List ℚ → ℤ)

/-- `probs[probs == 0] = -1` (line 186). -/
def mveTransform (preds : List ℤ) : List ℤ :=
  preds.map (fun p => if p = 0 then -1 else p)

/-- `for i in range(0, votes): Survived = Survived + probs` (lines 192-194). -/
def addProbsN : ℕ → List ℤ → List ℤ → List ℤ
  | 0, survived, _ => survived
  | n + 1, survived, probs =>
      addProbsN n (List.zipWith (fun a b => a + b) survived probs) probs

/-- The second loop of `majority_vote_ensemble`: starting from the
all-zero Survived column, add each model's transformed prediction
vector `votes` times. -/
def mveSummed (model_results : List (List ℤ × ℕ)) (n : ℕ) : List ℤ :=
  model_results.foldl (fun acc pv => addProbsN pv.2 acc pv.1)
    (List.replicate n 0)

/-- `majority_vote_ensemble`: fit each model, predict, flip 0 to -1,
add each prediction vector `votes` times onto a zero Survived column,
threshold at `> 0`, and write the submission with `index=False`. -/
def majority_vote_ensemble (testPassengerIds : List ℤ)
    (models_votes : List (IntModel × ℕ)) (train : List (List ℚ))
    (outcomes : List ℤ) (to_predict : List (List ℚ)) : Submission :=
  let model_results := models_votes.map (fun mv =>
    (mveTransform (to_predict.map (mv.1.fit train outcomes)), mv.2))
  { header := ["PassengerId", "Survived"],
    rows := testPassengerIds.zip
      ((mveSummed model_results testPassengerIds.length).map
        (fun v => ((if 0 < v then 1 else 0 : ℤ) : ℚ))),
    withIndex := false }

/-- The Survived value `majority_vote_ensemble` computes for one test
row, given each model's raw prediction on that row and its vote count. -/
def mveRow (preds_votes : List (ℤ × ℕ)) : ℤ :=
  if 0 < preds_votes.foldl
      (fun acc pv => acc + (pv.2 : ℤ) * (if pv.1 = 0 then -1 else pv.1)) 0
  then 1 else 0

/-- Total vote weight of the models predicting `label`. -/
def voteWeight (preds_votes : List (ℤ × ℕ)) (label : ℤ) : ℕ :=
  ((preds_votes.filter (fun pv => pv.1 == label)).map (fun pv => pv.2)).sum

/-- The spec's "weighted majority vote" of binary predictions, written
from the spec's words for comparison with the code: predict 1 exactly
when the total vote weight for 1 exceeds the total vote weight for 0. -/
def weightedMajorityVoteSpec (preds_votes : List (ℤ × ℕ)) : ℤ :=
  if voteWeight preds_votes 0 < voteWeight preds_votes 1 then 1 else 0

/-! ## impute (src/main.py lines 79-94)

A frame is its feature columns (as rows) plus the Train and Survived
columns; a cell is `none` when the value is missing (NaN).  The library
`fancyimpute.MICE().complete` call is the abstract parameter `mice`. -/

structure Frame where
  features : List (List (Option ℚ))
  train : List (Option ℚ)
  survived : List (Option ℚ)

def colNulls (c : List (Option ℚ)) : ℕ := (c.filter Option.isNone).length

def matNulls (m : List (List (Option ℚ))) : ℕ := (m.map colNulls).sum

/-- `results.isnull().sum().sum()` over all columns of the frame. -/
def Frame.nulls (f : Frame) : ℕ :=
  matNulls f.features + colNulls f.train + colNulls f.survived

/-- `impute`: drop Survived and Train, run the library imputer on the
rest, put Train and Survived back from the input, and
`assert results.isnull().sum().sum() == 0, 'Not all NAs removed'`. -/
def impute (mice : List (List (Option ℚ)) → List (List (Option ℚ)))
    (data : Frame) : Except String Frame :=
  let impute_missing := data.features
  let filled_soft := mice impute_missing
  let results : Frame :=
    { features := filled_soft, train := data.train, survived := data.survived }
  if results.nulls = 0 then Except.ok results
  else Except.error "Not all NAs removed"

/-! ## Randomized age fill (src/custom_model.py lines 72-84)

`rand_1`/`rand_2` are unseeded `np.random.randint` draws; the fill
`df["Age"][np.isnan(df["Age"])] = rand` replaces the missing ages, in
order, with the drawn values.  The draw is the explicit `rand` stream. -/

def fill_age : List ℚ → List (Option ℚ) → List ℚ
  | _, [] => []
  | rand, some a :: rest => a :: fill_age rand rest
  | rand, none :: rest => rand.headD 0 :: fill_age rand.tail rest

/-! ## Effect traces (order of I/O and library calls)

Every observable operation the scripts perform, in program order.  The
event alphabet includes thread creation and synchronization so that
their absence from every trace is a statement, and library calls carry
the `n_jobs` argument when the source passes one. -/

inductive Event where
  | readCSV : String → Event
  | transform : String → Event
  | libCall : String → Option ℤ → Event
  | fit : Event
  | predict : Event
  | writeCSV : String → List String → ℕ → Bool → Event
  | spawnThread : Event
  | syncThreads : Event
  deriving DecidableEq

def isWrite : Event → Bool
  | .writeCSV _ _ _ _ => true
  | _ => false

/-- `main()` (src/main.py lines 277-284) with
`find_hyperparameters=False`, on a test CSV of `n` records:
`ingest_data`, `feature_engineering` (ending in the MICE library call),
`split_data`, then `vote_classifier` fits, re-reads the test CSV,
predicts, and writes the submission. -/
def mainTrace (n : ℕ) : List Event :=
  [.readCSV "data/train.csv", .readCSV "data/test.csv", .transform "concat",
   .transform "feature_engineering", .libCall "fancyimpute.MICE.complete" none,
   .transform "split_data",
   .fit, .readCSV "data/test.csv", .predict,
   .writeCSV "Output_titanic" ["PassengerId", "Survived"] n false]

/-- `custom_classifier()` (src/main.py lines 300-397) on cached
preprocessed data: read the three temp CSVs, `voting()` fits and
predicts, `flush_result` re-reads the test CSV and writes
`voting.csv`. -/
def customClassifierTrace (n : ℕ) : List Event :=
  [.readCSV "temp/train_x", .readCSV "temp/train_y", .readCSV "temp/test_x",
   .fit, .predict,
   .readCSV "data/test.csv",
   .writeCSV "voting.csv" ["PassengerId", "Survived"] n false]

/-- One model of `train_test_model` (src/main.py lines 150-174):
`GridSearchCV(..., n_jobs=-1)`, fit, predict, then
`cross_val_score(..., n_jobs=-1)`. -/
def trainTestModelTrace : List Event :=
  [.libCall "GridSearchCV" (some (-1)), .fit, .predict,
   .libCall "cross_val_score" (some (-1))]

/-- One iteration of the `optimize_models` loop
(src/titanic_classifier.py lines 31-64): the same library calls with
`n_jobs=-1`. -/
def optimizeModelsIterTrace : List Event :=
  [.libCall "GridSearchCV" (some (-1)), .fit, .predict,
   .libCall "cross_val_score" (some (-1))]

/-! ## Theorems -/

/-- C8: for every input frame with numeric FamSize, Sex, Pclass_2 and
Pclass_3 columns, every value of the AloneRightPlace column produced by
`create_alone_right_place_feature` is 0 or 10: the `FamSize == 1` and
`FamSize > 1` guards of the two additions are mutually exclusive, so 20
is unreachable. -/
theorem alone_right_place_binary (data : List ARPRow) (v : ℚ)
    (hv : v ∈ create_alone_right_place_feature data) : v = 0 ∨ v = 10 := by
  rcases List.mem_map.1 hv with ⟨r, _, rfl⟩
  unfold aloneRightPlace
  by_cases h1 : r.famSize = 1 ∧ r.sex = 0 ∧ r.pclass_3 = 1
  · by_cases h2 : r.famSize > 1 ∧ r.sex = 1 ∧ r.pclass_2 = 1
    · exact absurd h2.1 (by rw [h1.1]; exact lt_irrefl 1)
    · right; rw [if_pos h1, if_neg h2]; norm_num
  · by_cases h2 : r.famSize > 1 ∧ r.sex = 1 ∧ r.pclass_2 = 1
    · right; rw [if_neg h1, if_pos h2]; norm_num
    · left; rw [if_neg h1, if_neg h2]; norm_num

theorem alone_right_place_binary_witness : (10 : ℚ) = 0 ∨ (10 : ℚ) = 10 :=
  alone_right_place_binary [⟨1, 0, 0, 1⟩] 10
    (by norm_num [create_alone_right_place_feature, aloneRightPlace])

/-- C10: on a name of the form `Last, Title. rest` — no comma in the
last name or the title, no period in the title — `extract_title`
returns the title sent through the `if`/`elif` chain: Mlle and Ms
become Miss, Mme becomes Mrs, the esteemed titles become Esteemed, the
royalty titles become Royalty, and anything else is returned unchanged;
on a string with no comma the `[1]` subscript raises IndexError. -/
theorem extract_title_spec (last title rest : List Char)
    (hl : ',' ∉ last) (ht : ',' ∉ title) (hd : '.' ∉ title) :
    extract_title (last ++ ',' :: ' ' :: (title ++ '.' :: rest))
        = Except.ok (titleMap title)
    ∧ (∀ s : List Char, ',' ∉ s → extract_title s = Except.error "IndexError")
    ∧ titleMap "Mlle".toList = "Miss".toList
    ∧ titleMap "Ms".toList = "Miss".toList
    ∧ titleMap "Mme".toList = "Mrs".toList
    ∧ (∀ t ∈ esteemedTitles, titleMap t = "Esteemed".toList)
    ∧ (∀ t ∈ royaltyTitles, titleMap t = "Royalty".toList)
    ∧ (title ∉ ["Mlle".toList, "Ms".toList] → title ≠ "Mme".toList →
        title ∉ esteemedTitles → title ∉ royaltyTitles → titleMap title = title) := by
  have htc : ∀ c ∈ title, (c != ',') = true := by
    intro c hc
    rcases eq_or_ne c ',' with rfl | hne
    · exact absurd hc ht
    · simpa using hne
  have htd : ∀ c ∈ title, (c != '.') = true := by
    intro c hc
    rcases eq_or_ne c '.' with rfl | hne
    · exact absurd hc hd
    · simpa using hne
  refine ⟨?_, ?_, by decide, by decide, by decide, by decide, by decide, ?_⟩
  · have hx : (pySplit ',' (last ++ ',' :: ' ' :: (title ++ '.' :: rest))).get? 1
        = some (' ' :: (title ++ '.' :: rest.takeWhile (fun c => c != ','))) := by
      rw [pySplit_append (' ' :: (title ++ '.' :: rest)) hl, List.get?_cons_succ,
        pySplit_get?_zero]
      have h1 : (' ' :: (title ++ '.' :: rest)).takeWhile (fun c => c != ',')
          = ' ' :: ((title ++ '.' :: rest).takeWhile (fun c => c != ',')) := by
        rw [List.takeWhile_cons_of_pos (by decide)]
      have h2 : (title ++ '.' :: rest).takeWhile (fun c => c != ',')
          = title ++ ('.' :: rest).takeWhile (fun c => c != ',') :=
        takeWhile_all_append ('.' :: rest) htc
      have h3 : ('.' :: rest).takeWhile (fun c => c != ',')
          = '.' :: rest.takeWhile (fun c => c != ',') := by
        rw [List.takeWhile_cons_of_pos (by decide)]
      rw [h1, h2, h3]
    have hhead : ((pySplit '.'
          (' ' :: (title ++ '.' :: rest.takeWhile (fun c => c != ',')))).headD []).drop 1
        = title := by
      rw [pySplit_headD, List.takeWhile_cons_of_pos (by decide),
        takeWhile_all_append ('.' :: rest.takeWhile (fun c => c != ',')) htd,
        List.takeWhile_cons_of_neg (by decide)]
      simp
    unfold extract_title
    rw [hx]
    show Except.ok (titleMap (((pySplit '.'
        (' ' :: (title ++ '.' :: rest.takeWhile (fun c => c != ',')))).headD []).drop 1))
      = Except.ok (titleMap title)
    rw [hhead]
  · intro s hs
    unfold extract_title
    rw [pySplit_not_mem hs]
    rfl
  · intro h1 h2 h3 h4
    unfold titleMap
    rw [if_neg h1, if_neg h2, if_neg h3, if_neg h4]

theorem extract_title_spec_witness :
    extract_title ("Futrelle, Mme. Lily May Peel".toList)
      = Except.ok ("Mrs".toList) := by
  have h := extract_title_spec "Futrelle".toList "Mme".toList " Lily May Peel".toList
    (by decide) (by decide) (by decide)
  have heq : "Futrelle, Mme. Lily May Peel".toList
      = "Futrelle".toList ++ ',' :: ' ' :: ("Mme".toList ++ '.' :: " Lily May Peel".toList) := by
    decide
  rw [heq, h.1, h.2.2.2.2.1]

/-- C2 counterexample: the age fill of src/custom_model.py draws
unseeded random numbers, so two runs with different draws transform the
same input frame differently — the two-run equality of the claim fails
at a frame with one missing age. -/
theorem fill_age_two_runs_differ :
    fill_age [30] [some 22, none] ≠ fill_age [40] [some 22, none] := by decide

/-- C2 amended: the transformations are deterministic only away from
the randomized age fill: when the input has no missing Age values, two
runs of the fill agree for any pair of random draws (and the remaining
straight-line column transforms are pure functions of the frame). -/
theorem fill_age_deterministic_without_missing (rand rand2 : List ℚ)
    (ages : List (Option ℚ)) (h : ∀ a ∈ ages, a.isSome) :
    fill_age rand ages = fill_age rand2 ages := by
  induction ages with
  | nil => rfl
  | cons a rest ih =>
    cases a with
    | some x =>
        simp only [fill_age, List.cons.injEq, true_and]
        exact ih fun b hb => h b (List.mem_cons_of_mem _ hb)
    | none => exact absurd (h none (List.mem_cons_self _ _)) (by simp)

theorem fill_age_deterministic_witness :
    fill_age [5] [some 1, some 2] = fill_age [9] [some 1, some 2] :=
  fill_age_deterministic_without_missing [5] [9] [some 1, some 2] (by decide)

/-- C5: `impute` hands the frame minus Survived and Train to the
library imputer and returns normally only when no missing value is
left: every normal return carries a frame with zero nulls whose Train
and Survived columns are the input's, and every abnormal exit is the
assertion error 'Not all NAs removed'. -/
theorem impute_spec (mice : List (List (Option ℚ)) → List (List (Option ℚ)))
    (data : Frame) :
    (∀ r, impute mice data = Except.ok r →
      r.nulls = 0 ∧ r.train = data.train ∧ r.survived = data.survived)
    ∧ (∀ e, impute mice data = Except.error e → e = "Not all NAs removed") := by
  have hieq : impute mice data
      = if (⟨mice data.features, data.train, data.survived⟩ : Frame).nulls = 0
        then Except.ok (⟨mice data.features, data.train, data.survived⟩ : Frame)
        else Except.error "Not all NAs removed" := rfl
  constructor
  · intro r hr
    rw [hieq] at hr
    split at hr
    next h =>
      cases hr
      exact ⟨h, rfl, rfl⟩
    next h => cases hr
  · intro e he
    rw [hieq] at he
    split at he
    next h => cases he
    next h =>
      cases he
      rfl

theorem impute_spec_witness :
    (⟨[[some 0, some 3]], [some 1], [some 0]⟩ : Frame).nulls = 0
    ∧ (⟨[[some 0, some 3]], [some 1], [some 0]⟩ : Frame).train = [some 1]
    ∧ (⟨[[some 0, some 3]], [some 1], [some 0]⟩ : Frame).survived = [some 0] := by
  have h := (impute_spec
    (fun m => m.map (fun row => row.map (fun v => some (v.getD 0))))
    ⟨[[none, some 3]], [some 1], [some 0]⟩).1
    ⟨[[some 0, some 3]], [some 1], [some 0]⟩
  exact h rfl

/-- A client performing a sequence of `append_model` calls. -/
def appendAll (s : SurvivalClassifier)
    (appends : List (Model × String × Hyper)) : SurvivalClassifier :=
  appends.foldl (fun acc a => acc.append_model a.1 a.2.1 a.2.2) s

theorem appendAll_inv (appends : List (Model × String × Hyper))
    (s : SurvivalClassifier)
    (h1 : s.model_names.length = s.models.length)
    (h2 : s.hyper_parameters.length = s.models.length) :
    (appendAll s appends).model_names.length = (appendAll s appends).models.length
    ∧ (appendAll s appends).hyper_parameters.length
        = (appendAll s appends).models.length := by
  induction appends generalizing s with
  | nil => exact ⟨h1, h2⟩
  | cons a rest ih =>
    exact ih _ (by simp [SurvivalClassifier.append_model, h1])
      (by simp [SurvivalClassifier.append_model, h2])

/-- C9: after `__init__` and after any sequence of `append_model`
calls, the `models`, `model_names` and `hyper_parameters` lists of a
`SurvivalClassifier` have equal length, so indexing `model_names` or
`hyper_parameters` at a `models` index stays in bounds. -/
theorem survival_classifier_lengths (train_x : List (List ℚ)) (train_y : List ℚ)
    (test_x : List (List ℚ)) (verbose : ℤ)
    (appends : List (Model × String × Hyper)) :
    ((appendAll (SurvivalClassifier.init train_x train_y test_x verbose)
        appends).model_names.length
      = (appendAll (SurvivalClassifier.init train_x train_y test_x verbose)
          appends).models.length)
    ∧ ((appendAll (SurvivalClassifier.init train_x train_y test_x verbose)
        appends).hyper_parameters.length
      = (appendAll (SurvivalClassifier.init train_x train_y test_x verbose)
          appends).models.length)
    ∧ ∀ i : Fin (appendAll (SurvivalClassifier.init train_x train_y test_x verbose)
        appends).models.length,
        (i : ℕ) < (appendAll (SurvivalClassifier.init train_x train_y test_x verbose)
          appends).model_names.length
        ∧ (i : ℕ) < (appendAll (SurvivalClassifier.init train_x train_y test_x verbose)
          appends).hyper_parameters.length := by
  have h := appendAll_inv appends
    (SurvivalClassifier.init train_x train_y test_x verbose) rfl rfl
  exact ⟨h.1, h.2, fun i => ⟨by rw [h.1]; exact i.isLt, by rw [h.2]; exact i.isLt⟩⟩

/-- C3: each of `voting`, `blending` and `stacking` fits on the stored
training data and leaves in `result` exactly one prediction per row of
the stored test set. -/
theorem ensemble_result_lengths
    (votingClassifierLib : List (String × Model) → String → Option (List ℚ) → Model)
    (skfSplit : ℕ → List (List ℚ) → List ℚ → List (List ℕ × List ℕ))
    (mlpLib : ℕ → Model)
    (ttsLib : ℚ → ℕ → List (List ℚ) → List ℚ →
      (List (List ℚ) × List (List ℚ) × List ℚ × List ℚ))
    (s : SurvivalClassifier) (voting : String) (weights : Option (List ℚ))
    (n_folds : ℕ) :
    (s.voting votingClassifierLib voting weights).result.length = s.test_x.length
    ∧ (s.blending skfSplit mlpLib n_folds).result.length = s.test_x.length
    ∧ (s.stacking ttsLib mlpLib).result.length = s.test_x.length := by
  refine ⟨?_, ?_, ?_⟩ <;>
    simp [SurvivalClassifier.voting, SurvivalClassifier.blending,
      SurvivalClassifier.stacking, SurvivalClassifier.get_classifier]

/-! ### majority_vote_ensemble versus the weighted majority vote -/

theorem majority_vote_ensemble_rows (testPassengerIds : List ℤ)
    (models_votes : List (IntModel × ℕ)) (train : List (List ℚ))
    (outcomes : List ℤ) (to_predict : List (List ℚ)) :
    (majority_vote_ensemble testPassengerIds models_votes train outcomes
        to_predict).rows
      = testPassengerIds.zip
          ((mveSummed (models_votes.map (fun mv =>
              (mveTransform (to_predict.map (mv.1.fit train outcomes)), mv.2)))
            testPassengerIds.length).map
            (fun v => ((if 0 < v then 1 else 0 : ℤ) : ℚ))) := rfl

theorem vote_classifier_rows
    (votingClassifierLib : List (String × Model) → String → Option (List ℚ) → Model)
    (testPassengerIds : List ℤ) (models : List (String × Model))
    (train : List (List ℚ)) (y : List ℚ) (test : List (List ℚ))
    (weights : Option (List ℚ)) :
    (vote_classifier votingClassifierLib testPassengerIds models train y test
        weights).rows
      = testPassengerIds.zip
          (test.map ((votingClassifierLib models "hard" none).fit train y).predict) :=
  rfl

theorem addProbsN_singleton (n : ℕ) (a p : ℤ) :
    addProbsN n [a] [p] = [a + n * p] := by
  induction n generalizing a with
  | zero => simp [addProbsN]
  | succ k ih =>
    show addProbsN k [a + p] [p] = _
    rw [ih]
    congr 1
    push_cast
    ring

theorem mve_sum_singleton (pvs : List (ℤ × ℕ)) : ∀ a : ℤ,
    (pvs.map (fun pv => ([pv.1], pv.2))).foldl
        (fun acc pv => addProbsN pv.2 acc pv.1) [a]
      = [pvs.foldl (fun acc pv => acc + (pv.2 : ℤ) * pv.1) a] := by
  induction pvs with
  | nil => intro a; rfl
  | cons pv rest ih =>
    intro a
    simp only [List.map_cons, List.foldl_cons, addProbsN_singleton]
    exact ih _

theorem voteWeight_cons (pv : ℤ × ℕ) (rest : List (ℤ × ℕ)) (label : ℤ) :
    voteWeight (pv :: rest) label
      = (if pv.1 = label then pv.2 else 0) + voteWeight rest label := by
  unfold voteWeight
  rw [List.filter_cons]
  by_cases hl : pv.1 = label
  · rw [if_pos (by simpa using hl), if_pos hl]
    simp
  · rw [if_neg (by simpa using hl), if_neg hl]
    simp

theorem mve_foldl_weights (pvs : List (ℤ × ℕ)) : ∀ a : ℤ,
    (∀ pv ∈ pvs, pv.1 = 0 ∨ pv.1 = 1) →
    pvs.foldl (fun acc pv => acc + (pv.2 : ℤ) * (if pv.1 = 0 then -1 else pv.1)) a
      = a + (voteWeight pvs 1 : ℤ) - (voteWeight pvs 0 : ℤ) := by
  induction pvs with
  | nil => intro a _; simp [voteWeight]
  | cons pv rest ih =>
    intro a h
    have hrest := ih (a + (pv.2 : ℤ) * (if pv.1 = 0 then -1 else pv.1))
      (fun q hq => h q (List.mem_cons_of_mem _ hq))
    rcases h pv (List.mem_cons_self _ _) with h0 | h1
    · rw [List.foldl_cons, hrest, voteWeight_cons, voteWeight_cons,
        if_pos h0, if_neg (by rw [h0]; norm_num), if_pos h0]
      push_cast
      ring
    · rw [List.foldl_cons, hrest, voteWeight_cons, voteWeight_cons,
        if_neg (by rw [h1]; norm_num), h1, if_pos rfl]
      norm_num
      ring

theorem mveRow_eq_spec (pvs : List (ℤ × ℕ))
    (h : ∀ pv ∈ pvs, pv.1 = 0 ∨ pv.1 = 1) :
    mveRow pvs = weightedMajorityVoteSpec pvs := by
  unfold mveRow weightedMajorityVoteSpec
  rw [mve_foldl_weights pvs 0 h]
  have hiff : (0 < 0 + (voteWeight pvs 1 : ℤ) - (voteWeight pvs 0 : ℤ))
      ↔ voteWeight pvs 0 < voteWeight pvs 1 := by omega
  by_cases hc : voteWeight pvs 0 < voteWeight pvs 1
  · rw [if_pos (hiff.2 hc), if_pos hc]
  · rw [if_neg (fun hlt => hc (hiff.1 hlt)), if_neg hc]

theorem majority_vote_ensemble_row (pid : ℤ) (mvs : List (IntModel × ℕ))
    (train : List (List ℚ)) (outcomes : List ℤ) (row : List ℚ) :
    (majority_vote_ensemble [pid] mvs train outcomes [row]).rows
      = [(pid,
          (mveRow (mvs.map (fun mv => (mv.1.fit train outcomes row, mv.2))) : ℚ))] := by
  rw [majority_vote_ensemble_rows]
  have hmr : mvs.map (fun mv =>
        (mveTransform ([row].map (mv.1.fit train outcomes)), mv.2))
      = (mvs.map (fun mv => ((if mv.1.fit train outcomes row = 0 then -1
          else mv.1.fit train outcomes row), mv.2))).map
          (fun pv => ([pv.1], pv.2)) := by
    rw [List.map_map]
    rfl
  have hbase : List.replicate ([pid] : List ℤ).length (0 : ℤ) = [0] := rfl
  rw [hmr]
  unfold mveSummed
  rw [hbase, mve_sum_singleton]
  unfold mveRow
  rw [List.foldl_map, List.foldl_map]
  rfl

/-- C1 counterexample: contrary to "no function in the repository
computes the weighted majority vote itself", the repository function
`majority_vote_ensemble` computes exactly the weighted majority vote of
its models' predictions, with no voting-library call: on two test rows,
three models predicting (1,1), (0,1), (0,0) with vote counts 2, 1, 1,
its Survived column coincides with the spec's weighted majority vote —
(0, 1) — computed by the repository's own arithmetic. -/
theorem majority_vote_ensemble_computes_vote :
    (majority_vote_ensemble [7, 8]
        [(⟨fun _ _ _ => 1⟩, 2),
         (⟨fun _ _ row => if 0 < row.headD 0 then 1 else 0⟩, 1),
         (⟨fun _ _ _ => 0⟩, 1)]
        [] [] [[0], [1]]).rows
      = [(7, (weightedMajorityVoteSpec [(1, 2), (0, 1), (0, 1)] : ℚ)),
         (8, (weightedMajorityVoteSpec [(1, 2), (1, 1), (0, 1)] : ℚ))]
    ∧ weightedMajorityVoteSpec [(1, 2), (0, 1), (0, 1)] = 0
    ∧ weightedMajorityVoteSpec [(1, 2), (1, 1), (0, 1)] = 1 := by
  refine ⟨?_, by decide, by decide⟩
  rw [majority_vote_ensemble_rows]
  decide

/-- C1 amended: the ensemble predictions on the program's execution
paths are delegated — `vote_classifier` and
`SurvivalClassifier.voting` emit exactly the predictions of the
library's voting classifier — but the repository's unused helper
`majority_vote_ensemble` computes the weighted majority vote itself:
per test row it produces `mveRow`, and on binary predictions `mveRow`
is precisely the weighted majority vote. -/
theorem voting_delegation_amended
    (votingClassifierLib : List (String × Model) → String → Option (List ℚ) → Model)
    (testPassengerIds : List ℤ) (models : List (String × Model))
    (train : List (List ℚ)) (y : List ℚ) (test : List (List ℚ))
    (weights : Option (List ℚ)) (s : SurvivalClassifier) (voting : String)
    (pid : ℤ) (mvs : List (IntModel × ℕ)) (outcomes : List ℤ) (row : List ℚ)
    (pvs : List (ℤ × ℕ)) (h : ∀ pv ∈ pvs, pv.1 = 0 ∨ pv.1 = 1) :
    (vote_classifier votingClassifierLib testPassengerIds models train y test
        weights).rows
      = testPassengerIds.zip
          (test.map ((votingClassifierLib models "hard" none).fit train y).predict)
    ∧ (s.voting votingClassifierLib voting weights).result
      = s.test_x.map
          (((votingClassifierLib (s.model_names.zip s.models) voting weights).fit
            s.train_x s.train_y).predict)
    ∧ (majority_vote_ensemble [pid] mvs train outcomes [row]).rows
      = [(pid,
          (mveRow (mvs.map (fun mv => (mv.1.fit train outcomes row, mv.2))) : ℚ))]
    ∧ mveRow pvs = weightedMajorityVoteSpec pvs :=
  ⟨rfl, rfl, majority_vote_ensemble_row pid mvs train outcomes row,
    mveRow_eq_spec pvs h⟩

theorem voting_delegation_amended_witness :
    mveRow [(1, 2), (0, 1)] = weightedMajorityVoteSpec [(1, 2), (0, 1)] :=
  (voting_delegation_amended (fun _ _ _ => ⟨fun _ _ => ⟨fun _ => 0, fun _ => 0⟩⟩)
    [] [] [] [] [] none
    (SurvivalClassifier.init [] [] [] 3) "hard" 0 [] [] []
    [(1, 2), (0, 1)] (by decide)).2.2.2

/-- C4: every Survived value in a submission built by
`majority_vote_ensemble` is 0 or 1 (the final `np.where(x > 0, 1, 0)`),
and every Survived value in a submission built by `vote_classifier` is
0 or 1 whenever the fitted library voting classifier predicts binary
labels. -/
theorem submission_binary :
    (∀ (testPassengerIds : List ℤ) (models_votes : List (IntModel × ℕ))
        (train : List (List ℚ)) (outcomes : List ℤ)
        (to_predict : List (List ℚ)) (pr : ℤ × ℚ),
      pr ∈ (majority_vote_ensemble testPassengerIds models_votes train outcomes
          to_predict).rows →
      pr.2 = 0 ∨ pr.2 = 1)
    ∧ (∀ (votingClassifierLib :
          List (String × Model) → String → Option (List ℚ) → Model)
        (testPassengerIds : List ℤ) (models : List (String × Model))
        (train : List (List ℚ)) (y : List ℚ) (test : List (List ℚ))
        (weights : Option (List ℚ)),
      (∀ r : List ℚ,
        ((votingClassifierLib models "hard" none).fit train y).predict r = 0
        ∨ ((votingClassifierLib models "hard" none).fit train y).predict r = 1) →
      ∀ pr ∈ (vote_classifier votingClassifierLib testPassengerIds models train y
          test weights).rows,
      pr.2 = 0 ∨ pr.2 = 1) := by
  constructor
  · intro ids mvs train outcomes to_predict pr hpr
    rw [majority_vote_ensemble_rows] at hpr
    have h2 := (List.of_mem_zip hpr).2
    rcases List.mem_map.1 h2 with ⟨v, _, hv⟩
    by_cases h0 : 0 < v
    · right
      rw [← hv, if_pos h0]
      norm_num
    · left
      rw [← hv, if_neg h0]
      norm_num
  · intro votingClassifierLib ids models train y test weights hbin pr hpr
    rw [vote_classifier_rows] at hpr
    have h2 := (List.of_mem_zip hpr).2
    rcases List.mem_map.1 h2 with ⟨r, _, hr⟩
    rw [← hr]
    exact hbin r

theorem submission_binary_witness :
    ((7 : ℤ), (1 : ℚ)).2 = 0 ∨ ((7 : ℤ), (1 : ℚ)).2 = 1 :=
  submission_binary.1 [7] [(⟨fun _ _ _ => 1⟩, 1)] [] [] [[0]] (7, 1)
    (by rw [majority_vote_ensemble_rows]; decide)

/-- C6: in both entry points the submission CSV is the last event,
written only after the models were fitted and predicted; and the
written frame has exactly the columns PassengerId and Survived, one row
per record of the test CSV, with no index column
(`to_csv(..., index=False)`). -/
theorem pipeline_order_and_csv (n : ℕ) :
    (∃ p, mainTrace n
        = p ++ [Event.writeCSV "Output_titanic" ["PassengerId", "Survived"] n false]
      ∧ Event.fit ∈ p ∧ Event.predict ∈ p ∧ ∀ e ∈ p, isWrite e = false)
    ∧ (∃ q, customClassifierTrace n
        = q ++ [Event.writeCSV "voting.csv" ["PassengerId", "Survived"] n false]
      ∧ Event.fit ∈ q ∧ Event.predict ∈ q ∧ ∀ e ∈ q, isWrite e = false)
    ∧ (∀ (votingClassifierLib :
          List (String × Model) → String → Option (List ℚ) → Model)
        (testPassengerIds : List ℤ) (models : List (String × Model))
        (train : List (List ℚ)) (y : List ℚ) (test : List (List ℚ))
        (weights : Option (List ℚ)),
      testPassengerIds.length = test.length →
      (vote_classifier votingClassifierLib testPassengerIds models train y test
          weights).header = ["PassengerId", "Survived"]
      ∧ (vote_classifier votingClassifierLib testPassengerIds models train y test
          weights).withIndex = false
      ∧ (vote_classifier votingClassifierLib testPassengerIds models train y test
          weights).rows.length = testPassengerIds.length)
    ∧ (∀ (s : SurvivalClassifier) (testPassengerIds : List ℤ),
      testPassengerIds.length = s.result.length →
      (s.flush_result testPassengerIds).header = ["PassengerId", "Survived"]
      ∧ (s.flush_result testPassengerIds).withIndex = false
      ∧ (s.flush_result testPassengerIds).rows.length
          = testPassengerIds.length) := by
  refine ⟨⟨[.readCSV "data/train.csv", .readCSV "data/test.csv", .transform "concat",
      .transform "feature_engineering", .libCall "fancyimpute.MICE.complete" none,
      .transform "split_data", .fit, .readCSV "data/test.csv", .predict],
      rfl, by decide, by decide, by decide⟩,
    ⟨[.readCSV "temp/train_x", .readCSV "temp/train_y", .readCSV "temp/test_x",
      .fit, .predict, .readCSV "data/test.csv"],
      rfl, by decide, by decide, by decide⟩, ?_, ?_⟩
  · intro votingClassifierLib ids models train y test weights hlen
    refine ⟨rfl, rfl, ?_⟩
    rw [vote_classifier_rows]
    simp [hlen]
  · intro s ids hlen
    refine ⟨rfl, rfl, ?_⟩
    unfold SurvivalClassifier.flush_result
    simp [hlen]

theorem pipeline_order_and_csv_witness :
    (vote_classifier (fun _ _ _ => ⟨fun _ _ => ⟨fun _ => 0, fun _ => 0⟩⟩)
        [4, 5] [] [] [] [[1], [2]] none).rows.length = ([4, 5] : List ℤ).length :=
  ((pipeline_order_and_csv 2).2.2.1
    (fun _ _ _ => ⟨fun _ _ => ⟨fun _ => 0, fun _ => 0⟩⟩)
    [4, 5] [] [] [] [[1], [2]] none rfl).2.2

/-- C7: no event of any trace of the program creates, schedules or
synchronizes a thread or process; the only concurrency-related data are
`n_jobs` arguments passed into library calls (`GridSearchCV`,
`cross_val_score`). -/
theorem no_concurrency (n : ℕ) :
    (∀ e ∈ mainTrace n ++ customClassifierTrace n
        ++ trainTestModelTrace ++ optimizeModelsIterTrace,
      e ≠ Event.spawnThread ∧ e ≠ Event.syncThreads)
    ∧ Event.libCall "GridSearchCV" (some (-1)) ∈ trainTestModelTrace
    ∧ Event.libCall "cross_val_score" (some (-1)) ∈ trainTestModelTrace
    ∧ Event.libCall "GridSearchCV" (some (-1)) ∈ optimizeModelsIterTrace := by
  refine ⟨?_, by decide, by decide, by decide⟩
  intro e he
  fin_cases he <;> exact ⟨by simp, by simp⟩

theorem no_concurrency_witness :
    Event.fit ≠ Event.spawnThread ∧ Event.fit ≠ Event.syncThreads :=
  (no_concurrency 0).1 Event.fit (by decide)

end Titanic
